import Mathlib

/-
Formal model of the Google Maps script loader
(src/src/lib/google-map-api-loader.example.ts, class GoogleMapsLoaderImpl).

The loader is single-threaded, event-loop driven JavaScript. We embed it as
pure functions over an explicit system state that bundles the loader fields
(loadingPromise, scriptElement), the browser window (window.google and the
global callback slot __googleMapsCallback__), the document head script list,
and a store of promises identified by numeric ids. Asynchronous events
(the injected script invoking the registered global callback, or the script
element firing its error event) are modelled as explicit state transitions.
-/

namespace GMapLoader

/-- LoadOptions from the source: optional library list, language and region. -/
structure LoadOptions where
  libraries : Option (List String)
  language : Option String
  region : Option String
deriving DecidableEq, Repr

/-- Characters left unchanged by the application/x-www-form-urlencoded
serializer used by URLSearchParams.toString: ASCII alphanumerics and
the four marks asterisk, hyphen, period, underscore. -/
def formSafe (c : Char) : Bool :=
  c = '*' || c = '-' || c = '.' || c = '_' ||
  ('0' ≤ c && c ≤ '9') || ('A' ≤ c && c ≤ 'Z') || ('a' ≤ c && c ≤ 'z')

/-- Uppercase hexadecimal digit for a value below 16. -/
def hexDigit (n : Nat) : Char :=
  if n < 10 then Char.ofNat ('0'.toNat + n) else Char.ofNat ('A'.toNat + n - 10)

/-- Percent-encoding of one byte, as two uppercase hex digits after a percent sign. -/
def percentEncodeByte (b : Nat) : List Char :=
  ['%', hexDigit (b / 16), hexDigit (b % 16)]

/-- UTF-8 byte sequence of a Unicode scalar value. -/
def utf8Bytes (c : Char) : List Nat :=
  let n := c.toNat
  if n < 0x80 then [n]
  else if n < 0x800 then [0xC0 + n / 64, 0x80 + n % 64]
  else if n < 0x10000 then [0xE0 + n / 4096, 0x80 + (n / 64) % 64, 0x80 + n % 64]
  else [0xF0 + n / 262144, 0x80 + (n / 4096) % 64, 0x80 + (n / 64) % 64, 0x80 + n % 64]

/-- Encoding of a single character under the x-www-form-urlencoded serializer:
safe characters pass through, space becomes a plus sign, everything else is
percent-encoded byte by byte. -/
def encodeChar (c : Char) : List Char :=
  if formSafe c then [c]
  else if c = ' ' then ['+']
  else ((utf8Bytes c).map percentEncodeByte).flatten

/-- Encoding of a character list, character by character. -/
def encodeAll : List Char → List Char
  | [] => []
  | c :: rest => encodeChar c ++ encodeAll rest

/-- Form-urlencoding of a string, as applied by URLSearchParams.toString. -/
def formEncode (s : String) : String :=
  String.mk (encodeAll s.data)

/-- Serialization of one name-value pair: encoded name, equals sign, encoded value. -/
def serializePair (p : String × String) : String :=
  formEncode p.1 ++ "=" ++ formEncode p.2

/-- Serialization of a parameter list, pairs joined by ampersands:
the model of URLSearchParams.toString. -/
def serializeParams (ps : List (String × String)) : String :=
  String.intercalate "&" (ps.map serializePair)

/-- Parameter list built by buildUrl, mirroring the successive
URLSearchParams.append calls of the source: key always; libraries when the
list is present with positive length; language and region when present and
truthy (a JavaScript string is truthy exactly when it is nonempty). -/
def urlParams (apiKey : String) (options : Option LoadOptions) : List (String × String) :=
  let params : List (String × String) := [("key", apiKey)]
  let params :=
    match options.bind LoadOptions.libraries with
    | some libs => if libs.length > 0 then params ++ [("libraries", String.intercalate "," libs)] else params
    | none => params
  let params :=
    match options.bind LoadOptions.language with
    | some lang => if lang.length > 0 then params ++ [("language", lang)] else params
    | none => params
  match options.bind LoadOptions.region with
  | some reg => if reg.length > 0 then params ++ [("region", reg)] else params
  | none => params

/-- The buildUrl method of the source: the fixed endpoint followed by the
serialized query parameters. -/
def buildUrl (apiKey : String) (options : Option LoadOptions) : String :=
  "https://maps.googleapis.com/maps/api/js?" ++ serializeParams (urlParams apiKey options)

/-- Model of the global google object: it carries a maps namespace marker
when the maps library namespace is populated. The numeric tag distinguishes
distinct handle values. -/
structure GoogleObj where
  mapsId : Option Nat
deriving DecidableEq, Repr

/-- Model of a script element in the document head: its numeric identity,
its src attribute, and the promise id its onerror handler rejects, when a
handler has been installed. -/
structure Script where
  sid : Nat
  src : String
  onerror : Option Nat
deriving DecidableEq, Repr

/-- State of a promise in the store. -/
inductive PromiseState where
  | pending : PromiseState
  | resolvedWith : Option GoogleObj → PromiseState
  | rejectedWith : String → PromiseState
deriving DecidableEq, Repr

/-- Result a loader method hands back to its caller: an immediately
resolved promise carrying the current window.google value, a reference to a
pending promise in the store, or an immediately rejected promise with an
error message. -/
inductive PResult where
  | resolved : Option GoogleObj → PResult
  | pending : Nat → PResult
  | rejected : String → PResult
deriving DecidableEq, Repr

/-- Whole system state: window.google, the __googleMapsCallback__ slot
(recording which promise the registered closure resolves), the two private
loader fields, the document head script list in insertion order, the list
of script elements removed from the document but still alive (removal
neither aborts the fetch nor detaches the installed handlers), the promise
store, and a fresh-id counter. -/
structure SysState where
  google : Option GoogleObj
  callback : Option Nat
  loadingPromise : Option Nat
  scriptElement : Option Nat
  docScripts : List Script
  detachedScripts : List Script
  promises : List (Nat × PromiseState)
  nextId : Nat
deriving DecidableEq, Repr

/-- Lookup of a promise by id, first match wins. -/
def lookupP : List (Nat × PromiseState) → Nat → Option PromiseState
  | [], _ => none
  | (q, v) :: rest, pid => if q = pid then some v else lookupP rest pid

/-- Settling of a promise: every entry with the given id is updated. -/
def setP (l : List (Nat × PromiseState)) (pid : Nat) (v : PromiseState) :
    List (Nat × PromiseState) :=
  l.map (fun q => if q.1 = pid then (q.1, v) else q)

/-- Search of the document for a script element by identity. -/
def findScript : List Script → Nat → Option Script
  | [], _ => none
  | s :: rest, sid => if s.sid = sid then some s else findScript rest sid

/-- Installation of the onerror handler on the script with the given
identity, mirroring the field assignment on the freshly created element. -/
def setOnError (l : List Script) (sid pid : Nat) : List Script :=
  l.map (fun s => if s.sid = sid then { s with onerror := some pid } else s)

/-- The isLoaded method: true exactly when window.google exists and its
maps namespace exists. The window object itself always exists in this
browser model. -/
def isLoaded (st : SysState) : Bool :=
  match st.google with
  | some g => g.mapsId.isSome
  | none => false

/-- The addScript method: creates a script element with the given src,
appends it to the document head, and returns it (by identity). -/
def addScript (st : SysState) (url : String) : Nat × SysState :=
  let sid := st.nextId
  (sid, { st with
            docScripts := st.docScripts ++ [{ sid := sid, src := url, onerror := none }],
            nextId := st.nextId + 1 })

/-- The load method. Already loaded: an immediately resolved promise with
window.google, no state change. Load in flight: the stored pending promise,
no state change. Otherwise the executor runs synchronously: a fresh pending
promise is allocated, the global callback slot is registered to resolve it,
the script element is created from buildUrl plus the callback query
parameter and appended via addScript, its onerror handler is installed to
reject the same promise, and both private fields are set. -/
def load (st : SysState) (apiKey : String) (options : Option LoadOptions) :
    PResult × SysState :=
  if isLoaded st then
    (.resolved st.google, st)
  else
    match st.loadingPromise with
    | some pid => (.pending pid, st)
    | none =>
      let url := buildUrl apiKey options
      let pid := st.nextId
      let st1 := { st with
                     promises := st.promises ++ [(pid, .pending)],
                     callback := some pid,
                     nextId := st.nextId + 1 }
      let scriptUrl := url ++ "&callback=__googleMapsCallback__"
      let r := addScript st1 scriptUrl
      let st2 := { r.2 with
                     docScripts := setOnError r.2.docScripts r.1 pid,
                     scriptElement := some r.1,
                     loadingPromise := some pid }
      (.pending pid, st2)

/-- Message of the error thrown by wait when nothing is loaded and nothing
is pending. -/
def notLoadingMsg : String :=
  "Google Maps is not loaded and no load is in progress. Call load() first."

/-- Message of the error thrown by importLibrary before the base API is
loaded. -/
def notLoadedMsg : String :=
  "Google Maps API must be loaded before importing libraries. Call load() first."

/-- The wait method: resolved promise when loaded, the in-flight promise
when one exists, a rejected promise otherwise. It never mutates state. -/
def wait (st : SysState) : PResult × SysState :=
  if isLoaded st then
    (.resolved st.google, st)
  else
    match st.loadingPromise with
    | some pid => (.pending pid, st)
    | none => (.rejected notLoadingMsg, st)

/-- Outcome of an importLibrary call: the thrown guard error, or the value
delegated from the native google.maps.importLibrary mechanism. -/
inductive ImportOutcome (α : Type) where
  | thrown : String → ImportOutcome α
  | delegated : α → ImportOutcome α
deriving DecidableEq, Repr

/-- The importLibrary method, parameterized by the native import mechanism
of the loaded API (an arbitrary function of the global google object and
the library name): guard error when not loaded, otherwise pure delegation
of the unmodified name with the result returned unmodified. -/
def importLibrary {α : Type} (nativeImport : Option GoogleObj → String → α)
    (st : SysState) (libraryName : String) : ImportOutcome α × SysState :=
  if isLoaded st then
    (.delegated (nativeImport st.google libraryName), st)
  else
    (.thrown notLoadedMsg, st)

/-- The dispose method: removes the remembered script element from the
document when present, clears both private fields, deletes window.google
when present, and deletes the global callback slot. The removed element is
only detached, not destroyed: the browser fetch and the installed handlers
stay alive, so it moves to the detached list. -/
def dispose (st : SysState) : SysState :=
  { st with
      docScripts :=
        match st.scriptElement with
        | some sid => st.docScripts.filter (fun s => s.sid ≠ sid)
        | none => st.docScripts,
      detachedScripts :=
        match st.scriptElement with
        | some sid => st.detachedScripts ++ st.docScripts.filter (fun s => s.sid = sid)
        | none => st.detachedScripts,
      scriptElement := none,
      loadingPromise := none,
      google := none,
      callback := none }

/-- Invocation of the registered global callback, as the external script
performs once it has executed: the closure deletes the global callback slot
and resolves its promise with the current window.google value. Nothing
happens when no callback is registered. -/
def fireCallback (st : SysState) : SysState :=
  match st.callback with
  | some pid => { st with
                    callback := none,
                    promises := setP st.promises pid (.resolvedWith st.google) }
  | none => st

/-- Successful completion of the external script: it populates
window.google and then invokes the registered global callback. -/
def scriptSucceeds (st : SysState) (g : GoogleObj) : SysState :=
  fireCallback { st with google := some g }

/-- Error event on a script element, attached or detached: removing an
element from the document neither aborts its fetch nor detaches its
handlers, so the event is delivered either way. When the element carries
the onerror handler installed by load, the handler deletes the global
callback slot, clears the loadingPromise field, and rejects its promise
with the script-load error message. -/
def fireScriptError (st : SysState) (sid : Nat) : SysState :=
  match (findScript (st.docScripts ++ st.detachedScripts) sid).bind Script.onerror with
  | some pid => { st with
                    callback := none,
                    loadingPromise := none,
                    promises := setP st.promises pid
                      (.rejectedWith "Failed to load Google Maps script") }
  | none => st

/-- Initial system state: fresh page, fresh loader instance. -/
def initialState : SysState :=
  { google := none, callback := none, loadingPromise := none,
    scriptElement := none, docScripts := [], detachedScripts := [],
    promises := [], nextId := 0 }

/-- Alphabet of system events: the five public loader operations plus the
two asynchronous script events. -/
inductive Step where
  | loadStep : String → Option LoadOptions → Step
  | waitStep : Step
  | importStep : String → Step
  | disposeStep : Step
  | succeedStep : GoogleObj → Step
  | errorStep : Nat → Step
deriving DecidableEq, Repr

/-- Effect of one event on the system state. -/
def applyStep (st : SysState) : Step → SysState
  | .loadStep k o => (load st k o).2
  | .waitStep => (wait st).2
  | .importStep name => (importLibrary (fun _ _ => (0 : Nat)) st name).2
  | .disposeStep => dispose st
  | .succeedStep g => scriptSucceeds st g
  | .errorStep sid => fireScriptError st sid

/-- Execution of a sequence of events. -/
def run (st : SysState) : List Step → SysState
  | [] => st
  | e :: rest => run (applyStep st e) rest

/-- Execution of a sequence of load calls, collecting the returned
promises. -/
def loadSeq (st : SysState) :
    List (String × Option LoadOptions) → List PResult × SysState
  | [] => ([], st)
  | (k, o) :: rest =>
    let r := load st k o
    let rr := loadSeq r.2 rest
    (r.1 :: rr.1, rr.2)

/-- A state whose global google object already exposes the maps namespace:
the loaded configuration used to instantiate theorems about loaded states. -/
def loadedState : SysState :=
  { google := some { mapsId := some 0 }, callback := none, loadingPromise := none,
    scriptElement := none, docScripts := [], detachedScripts := [],
    promises := [], nextId := 1 }

/-- Parameter list as the specification words it: the key pair first, then
the libraries pair exactly when the list is present and nonempty, then the
language pair and the region pair exactly when present and nonempty, in
this order. -/
def specUrlParams (apiKey : String) (options : Option LoadOptions) :
    List (String × String) :=
  [("key", apiKey)] ++
  (match options.bind LoadOptions.libraries with
   | some libs =>
     if libs.length > 0 then [("libraries", String.intercalate "," libs)] else []
   | none => []) ++
  (match options.bind LoadOptions.language with
   | some lang => if lang.length > 0 then [("language", lang)] else []
   | none => []) ++
  (match options.bind LoadOptions.region with
   | some reg => if reg.length > 0 then [("region", reg)] else []
   | none => [])

/-- Recognizer of the script-error event among the system events. -/
def isErrorStep : Step → Bool
  | .errorStep _ => true
  | _ => false

/-- A pending promise that no success path can reach: it is below the
fresh-id counter and the global callback slot does not resolve it. Only a
script-error event can still settle such a promise. -/
def pendingUnreachable (st : SysState) (pid : Nat) : Prop :=
  pid < st.nextId ∧ st.callback ≠ some pid ∧
  lookupP st.promises pid = some .pending

/-- A promise that can never be resolved: it is below the fresh-id
counter, the global callback slot does not resolve it, and it is pending
or already rejected with the script-load error message. -/
def neverResolvedInv (st : SysState) (pid : Nat) : Prop :=
  pid < st.nextId ∧ st.callback ≠ some pid ∧
  (lookupP st.promises pid = some .pending ∨
   lookupP st.promises pid = some (.rejectedWith "Failed to load Google Maps script"))

/-- Installing the onerror handler right after appending a fresh script
touches only that fresh script when its identity is new to the document. -/
theorem setOnError_append_fresh (l : List Script) (x : Script) (pid : Nat)
    (h : ∀ s ∈ l, s.sid ≠ x.sid) :
    setOnError (l ++ [x]) x.sid pid = l ++ [{ x with onerror := some pid }] := by
  simp only [setOnError, List.map_append, List.map_cons, List.map_nil, if_pos rfl]
  congr 1
  calc l.map (fun s => if s.sid = x.sid then { s with onerror := some pid } else s)
      = l.map id := List.map_congr_left (fun s hs => by simp [h s hs])
    _ = l := List.map_id l

/-- Explicit description of a load call from a state that is neither loaded
nor loading: the returned promise is fresh and the executor registers the
callback, appends one script with the onerror handler installed, and sets
both private fields. -/
theorem load_fresh (st : SysState) (k : String) (o : Option LoadOptions)
    (h1 : isLoaded st = false) (h2 : st.loadingPromise = none)
    (hs : ∀ s ∈ st.docScripts, s.sid < st.nextId) :
    load st k o = (.pending st.nextId,
      { st with
          promises := st.promises ++ [(st.nextId, .pending)],
          callback := some st.nextId,
          docScripts := st.docScripts ++
            [{ sid := st.nextId + 1,
               src := buildUrl k o ++ "&callback=__googleMapsCallback__",
               onerror := some st.nextId }],
          scriptElement := some (st.nextId + 1),
          loadingPromise := some st.nextId,
          nextId := st.nextId + 2 }) := by
  have hne : ∀ s ∈ st.docScripts, s.sid ≠ st.nextId + 1 := by
    intro s hsmem
    have := hs s hsmem
    omega
  have hset := setOnError_append_fresh st.docScripts
    ⟨st.nextId + 1, buildUrl k o ++ "&callback=__googleMapsCallback__", none⟩ st.nextId hne
  simp only [load, h1, h2, addScript, Bool.false_eq_true, if_false]
  simp only [hset]

/-- A promise found in the front part of the store is found in the whole
store. -/
theorem lookupP_append_some (l l2 : List (Nat × PromiseState)) (pid : Nat)
    (v : PromiseState) (h : lookupP l pid = some v) :
    lookupP (l ++ l2) pid = some v := by
  induction l with
  | nil => exact absurd h (by simp [lookupP])
  | cons q rest ih =>
    obtain ⟨a, b⟩ := q
    by_cases ha : a = pid
    · simp only [lookupP, if_pos ha] at h
      simp [lookupP, ha, h]
    · simp only [lookupP, if_neg ha] at h
      simp only [List.cons_append, lookupP, if_neg ha]
      exact ih h

/-- Lookup misses when no entry carries the id. -/
theorem lookupP_none_of_ne (l : List (Nat × PromiseState)) (pid : Nat)
    (h : ∀ q ∈ l, q.1 ≠ pid) : lookupP l pid = none := by
  induction l with
  | nil => rfl
  | cons q rest ih =>
    obtain ⟨a, b⟩ := q
    have ha : a ≠ pid := h (a, b) (by simp)
    simp only [lookupP, if_neg ha]
    exact ih (fun p hp => h p (by simp [hp]))

/-- Lookup skips a front part that misses. -/
theorem lookupP_append_none (l l2 : List (Nat × PromiseState)) (pid : Nat)
    (h : lookupP l pid = none) :
    lookupP (l ++ l2) pid = lookupP l2 pid := by
  induction l with
  | nil => rfl
  | cons q rest ih =>
    obtain ⟨a, b⟩ := q
    by_cases ha : a = pid
    · simp [lookupP, ha] at h
    · simp only [lookupP, if_neg ha] at h
      simp only [List.cons_append, lookupP, if_neg ha]
      exact ih h

/-- Settling one promise leaves every other promise unchanged. -/
theorem lookupP_setP_ne (l : List (Nat × PromiseState)) (pid q : Nat)
    (v : PromiseState) (h : q ≠ pid) :
    lookupP (setP l q v) pid = lookupP l pid := by
  induction l with
  | nil => rfl
  | cons p rest ih =>
    obtain ⟨a, b⟩ := p
    by_cases ha : a = q
    · have hna : a ≠ pid := by rw [ha]; exact h
      simp only [setP, List.map_cons, if_pos (show (a, b).1 = q from ha)]
      simp only [lookupP, if_neg hna]
      exact ih
    · simp only [setP, List.map_cons, if_neg (show ¬(a, b).1 = q from ha)]
      by_cases hap : a = pid
      · simp [lookupP, hap]
      · simp only [lookupP, if_neg hap]
        exact ih

/-- Settling a stored promise updates its first entry to the new state. -/
theorem lookupP_setP_eq (l : List (Nat × PromiseState)) (pid : Nat)
    (v w : PromiseState) (h : lookupP l pid = some w) :
    lookupP (setP l pid v) pid = some v := by
  induction l with
  | nil => exact absurd h (by simp [lookupP])
  | cons p rest ih =>
    obtain ⟨a, b⟩ := p
    by_cases ha : a = pid
    · simp only [setP, List.map_cons, if_pos (show (a, b).1 = pid from ha)]
      simp [lookupP, ha]
    · simp only [lookupP, if_neg ha] at h
      simp only [setP, List.map_cons, if_neg (show ¬(a, b).1 = pid from ha)]
      simp only [lookupP, if_neg ha]
      exact ih h

/-- Settling a freshly appended promise touches only that entry. -/
theorem setP_append_fresh (l : List (Nat × PromiseState)) (pid : Nat)
    (w v : PromiseState) (h : ∀ q ∈ l, q.1 ≠ pid) :
    setP (l ++ [(pid, w)]) pid v = l ++ [(pid, v)] := by
  simp only [setP, List.map_append, List.map_cons, List.map_nil, if_pos rfl]
  congr 1
  calc l.map (fun q => if q.1 = pid then (q.1, v) else q)
      = l.map id := List.map_congr_left (fun q hq => by simp [h q hq])
    _ = l := List.map_id l

/-- A found script is a member of the document list. -/
theorem findScript_mem (l : List Script) (sid : Nat) (s : Script)
    (h : findScript l sid = some s) : s ∈ l := by
  induction l with
  | nil => exact absurd h (by simp [findScript])
  | cons a rest ih =>
    by_cases ha : a.sid = sid
    · simp only [findScript, if_pos ha, Option.some.injEq] at h
      simp [h]
    · simp only [findScript, if_neg ha] at h
      simp [ih h]

/-- Search for a freshly appended identity finds exactly that script. -/
theorem findScript_append_fresh (l : List Script) (x : Script)
    (h : ∀ s ∈ l, s.sid ≠ x.sid) :
    findScript (l ++ [x]) x.sid = some x := by
  induction l with
  | nil => simp [findScript]
  | cons a rest ih =>
    have ha : a.sid ≠ x.sid := h a (by simp)
    simp only [List.cons_append, findScript, if_neg ha]
    exact ih (fun s hs => h s (by simp [hs]))

/-- A script found in the front part of the document is found in the whole
document. -/
theorem findScript_append_some (l l2 : List Script) (sid : Nat) (s : Script)
    (h : findScript l sid = some s) : findScript (l ++ l2) sid = some s := by
  induction l with
  | nil => exact absurd h (by simp [findScript])
  | cons a rest ih =>
    by_cases ha : a.sid = sid
    · simp only [findScript, if_pos ha] at h
      simp [findScript, ha, h]
    · simp only [findScript, if_neg ha] at h
      simp only [List.cons_append, findScript, if_neg ha]
      exact ih h

/-- Search never finds an identity that has just been filtered out. -/
theorem findScript_filter_self (l : List Script) (sid : Nat) :
    findScript (l.filter (fun s => s.sid ≠ sid)) sid = none := by
  induction l with
  | nil => rfl
  | cons a rest ih =>
    by_cases ha : a.sid = sid
    · simpa [List.filter_cons, ha] using ih
    · simpa [List.filter_cons, ha, findScript] using ih

/-- A load call while a load is in flight returns the stored promise and
leaves the state untouched. -/
theorem load_inflight (st : SysState) (k : String) (o : Option LoadOptions) (pid : Nat)
    (h1 : isLoaded st = false) (h2 : st.loadingPromise = some pid) :
    load st k o = (.pending pid, st) := by
  simp [load, h1, h2]

/-- Every load call of a sequence issued while a load is in flight returns
the stored promise, and the state never changes. -/
theorem loadSeq_inflight (calls : List (String × Option LoadOptions))
    (st : SysState) (pid : Nat)
    (h1 : isLoaded st = false) (h2 : st.loadingPromise = some pid) :
    loadSeq st calls = (List.replicate calls.length (.pending pid), st) := by
  induction calls with
  | nil => simp [loadSeq]
  | cons c rest ih =>
    obtain ⟨k, o⟩ := c
    simp [loadSeq, load_inflight st k o pid h1 h2, ih, List.replicate_succ]

/-- Explicit description of the error event firing on the script appended
by a fresh load: the promise is rejected, the callback slot and the
loadingPromise field are cleared, and nothing else changes. -/
theorem fireScriptError_after_load (st : SysState) (k : String) (o : Option LoadOptions)
    (h1 : isLoaded st = false) (h2 : st.loadingPromise = none)
    (hs : ∀ s ∈ st.docScripts, s.sid < st.nextId)
    (hp : ∀ q ∈ st.promises, q.1 < st.nextId) :
    fireScriptError (load st k o).2 (st.nextId + 1) =
      { st with
          promises := st.promises ++
            [(st.nextId, .rejectedWith "Failed to load Google Maps script")],
          callback := none,
          docScripts := st.docScripts ++
            [{ sid := st.nextId + 1,
               src := buildUrl k o ++ "&callback=__googleMapsCallback__",
               onerror := some st.nextId }],
          scriptElement := some (st.nextId + 1),
          loadingPromise := none,
          nextId := st.nextId + 2 } := by
  have hne : ∀ s ∈ st.docScripts, s.sid ≠ st.nextId + 1 := by
    intro s hsmem
    have := hs s hsmem
    omega
  have hfind : findScript
      ((st.docScripts ++
        [{ sid := st.nextId + 1,
           src := buildUrl k o ++ "&callback=__googleMapsCallback__",
           onerror := some st.nextId }]) ++ st.detachedScripts) (st.nextId + 1) =
      some { sid := st.nextId + 1,
             src := buildUrl k o ++ "&callback=__googleMapsCallback__",
             onerror := some st.nextId } :=
    findScript_append_some _ _ _ _ (findScript_append_fresh st.docScripts _ hne)
  have hpne : ∀ q ∈ st.promises, q.1 ≠ st.nextId := by
    intro q hq
    have := hp q hq
    omega
  have hsetp : setP (st.promises ++ [(st.nextId, PromiseState.pending)]) st.nextId
      (.rejectedWith "Failed to load Google Maps script") =
      st.promises ++ [(st.nextId, .rejectedWith "Failed to load Google Maps script")] :=
    setP_append_fresh st.promises st.nextId _ _ hpne
  rw [load_fresh st k o h1 h2 hs]
  simp only [fireScriptError, hfind, Option.some_bind, hsetp]

/-- The wait method never mutates the state. -/
theorem wait_state_id (st : SysState) : (wait st).2 = st := by
  by_cases h : isLoaded st
  · simp [wait, h]
  · cases hl : st.loadingPromise <;> simp [wait, h, hl]

/-- The importLibrary method never mutates the state. -/
theorem importLibrary_state_id {α : Type} (f : Option GoogleObj → String → α)
    (st : SysState) (name : String) : (importLibrary f st name).2 = st := by
  by_cases h : isLoaded st <;> simp [importLibrary, h]

/-- The state after a load call is either unchanged or the explicit
fresh-load state. -/
theorem load_state_cases (st : SysState) (k : String) (o : Option LoadOptions) :
    (load st k o).2 = st ∨
    (load st k o).2 = { st with
        promises := st.promises ++ [(st.nextId, .pending)],
        callback := some st.nextId,
        docScripts := setOnError
          (st.docScripts ++
            [{ sid := st.nextId + 1,
               src := buildUrl k o ++ "&callback=__googleMapsCallback__",
               onerror := none }])
          (st.nextId + 1) st.nextId,
        scriptElement := some (st.nextId + 1),
        loadingPromise := some st.nextId,
        nextId := st.nextId + 2 } := by
  by_cases hld : isLoaded st
  · left
    simp [load, hld]
  · match hl : st.loadingPromise with
    | some pid => left; simp [load, hld, hl]
    | none => right; simp [load, hld, hl, addScript]

/-- A fresh load allocates a strictly larger promise id and registers the
callback slot for it, so it cannot touch an older unreachable pending
promise; the other non-error events leave the promise store alone or
settle only the promise referenced by the callback slot. -/
theorem pendingUnreachable_applyStep (st : SysState) (pid : Nat) (e : Step)
    (he : isErrorStep e = false) (h : pendingUnreachable st pid) :
    pendingUnreachable (applyStep st e) pid := by
  obtain ⟨hlt, hcb, hpr⟩ := h
  cases e with
  | loadStep k o =>
    rcases load_state_cases st k o with heq | heq
    · rw [applyStep, heq]
      exact ⟨hlt, hcb, hpr⟩
    · rw [applyStep, heq]
      exact ⟨show pid < st.nextId + 2 by omega, by simp; omega,
        lookupP_append_some _ _ _ _ hpr⟩
  | waitStep =>
    rw [applyStep, wait_state_id]
    exact ⟨hlt, hcb, hpr⟩
  | importStep name =>
    rw [applyStep, importLibrary_state_id]
    exact ⟨hlt, hcb, hpr⟩
  | disposeStep =>
    exact ⟨hlt, by simp [applyStep, dispose], hpr⟩
  | succeedStep g =>
    simp only [applyStep, scriptSucceeds, fireCallback]
    match hcb2 : st.callback with
    | some q =>
      have hq : q ≠ pid := by
        intro hqe
        rw [hqe] at hcb2
        exact hcb hcb2
      refine ⟨hlt, by simp, ?_⟩
      rw [lookupP_setP_ne _ _ _ _ hq]
      exact hpr
    | none =>
      exact ⟨hlt, by simp, hpr⟩
  | errorStep sid =>
    exact absurd he (by simp [isErrorStep])

/-- An unreachable pending promise stays pending along every event
sequence that contains no script-error event. -/
theorem pendingUnreachable_run (pid : Nat) (steps : List Step) :
    ∀ st : SysState, (∀ e ∈ steps, isErrorStep e = false) →
      pendingUnreachable st pid → pendingUnreachable (run st steps) pid := by
  induction steps with
  | nil => exact fun st _ h => h
  | cons e rest ih =>
    intro st hall h
    exact ih (applyStep st e) (fun x hx => hall x (List.mem_cons_of_mem e hx))
      (pendingUnreachable_applyStep st pid e (hall e (List.mem_cons_self e rest)) h)

/-- No event can ever resolve a promise the callback slot does not
reference: a script-error event can at most reject it with the script-load
error message, and every other event leaves it alone. -/
theorem neverResolvedInv_applyStep (st : SysState) (pid : Nat) (e : Step)
    (h : neverResolvedInv st pid) : neverResolvedInv (applyStep st e) pid := by
  obtain ⟨hlt, hcb, hpr⟩ := h
  cases e with
  | loadStep k o =>
    rcases load_state_cases st k o with heq | heq
    · rw [applyStep, heq]
      exact ⟨hlt, hcb, hpr⟩
    · rw [applyStep, heq]
      refine ⟨show pid < st.nextId + 2 by omega, by simp; omega, ?_⟩
      rcases hpr with hp | hp
      · exact Or.inl (lookupP_append_some _ _ _ _ hp)
      · exact Or.inr (lookupP_append_some _ _ _ _ hp)
  | waitStep =>
    rw [applyStep, wait_state_id]
    exact ⟨hlt, hcb, hpr⟩
  | importStep name =>
    rw [applyStep, importLibrary_state_id]
    exact ⟨hlt, hcb, hpr⟩
  | disposeStep =>
    exact ⟨hlt, by simp [applyStep, dispose], hpr⟩
  | succeedStep g =>
    simp only [applyStep, scriptSucceeds, fireCallback]
    match hcb2 : st.callback with
    | some q =>
      have hq : q ≠ pid := by
        intro hqe
        rw [hqe] at hcb2
        exact hcb hcb2
      refine ⟨hlt, by simp, ?_⟩
      rw [lookupP_setP_ne _ _ _ _ hq]
      exact hpr
    | none =>
      exact ⟨hlt, by simp, hpr⟩
  | errorStep sid =>
    simp only [applyStep, fireScriptError]
    match hfind2 : (findScript (st.docScripts ++ st.detachedScripts) sid).bind Script.onerror with
    | some q =>
      by_cases hq : q = pid
      · subst hq
        refine ⟨hlt, by simp, Or.inr ?_⟩
        rcases hpr with hp | hp
        · exact lookupP_setP_eq _ _ _ _ hp
        · exact lookupP_setP_eq _ _ _ _ hp
      · refine ⟨hlt, by simp, ?_⟩
        rw [lookupP_setP_ne _ _ _ _ hq]
        exact hpr
    | none =>
      exact ⟨hlt, hcb, hpr⟩

/-- A never-resolvable promise stays never resolved along every event
sequence. -/
theorem neverResolvedInv_run (pid : Nat) (steps : List Step) :
    ∀ st : SysState, neverResolvedInv st pid →
      neverResolvedInv (run st steps) pid := by
  induction steps with
  | nil => exact fun st h => h
  | cons e rest ih =>
    intro st h
    exact ih (applyStep st e) (neverResolvedInv_applyStep st pid e h)

/-- Form-urlencoding is the identity on strings made of safe characters. -/
theorem formEncode_safe_id (s : String) (h : s.data.all formSafe = true) :
    formEncode s = s := by
  obtain ⟨l⟩ := s
  simp only [formEncode]
  congr 1
  induction l with
  | nil => rfl
  | cons c t ih =>
    simp only [List.all_cons, Bool.and_eq_true] at h
    simp only [encodeAll, encodeChar, if_pos h.1, List.singleton_append, List.cons.injEq,
      true_and]
    exact ih h.2

/-- The parameter list built by the code coincides with the parameter list
worded by the specification. -/
theorem urlParams_eq_spec (k : String) (o : Option LoadOptions) :
    urlParams k o = specUrlParams k o := by
  cases o with
  | none => rfl
  | some opts =>
    obtain ⟨ls, lg, rg⟩ := opts
    cases ls <;> cases lg <;> cases rg <;>
      simp only [urlParams, specUrlParams, Option.bind, List.append_nil,
        List.nil_append] <;>
      split_ifs <;>
      simp

/-- C1: every load call issued while a previous load is still in flight
returns the exact same pending promise as the first call, so all callers
share one eventual result, and exactly one script element is injected for
the whole sequence of calls. -/
theorem load_coalesces (st : SysState) (k : String) (o : Option LoadOptions)
    (calls : List (String × Option LoadOptions))
    (h1 : isLoaded st = false) (h2 : st.loadingPromise = none)
    (hs : ∀ s ∈ st.docScripts, s.sid < st.nextId) :
    (∀ p ∈ (loadSeq st ((k, o) :: calls)).1, p = PResult.pending st.nextId) ∧
    (loadSeq st ((k, o) :: calls)).2.docScripts.length = st.docScripts.length + 1 := by
  have hf := load_fresh st k o h1 h2 hs
  have hl1 : isLoaded (load st k o).2 = false := by
    rw [hf]
    simpa [isLoaded] using h1
  have hl2 : (load st k o).2.loadingPromise = some st.nextId := by rw [hf]
  have hseq := loadSeq_inflight calls (load st k o).2 st.nextId hl1 hl2
  rw [hf] at hseq
  constructor
  · intro p hp
    simp only [loadSeq, hseq, hf] at hp
    rcases List.mem_cons.mp hp with h | h
    · exact h
    · exact List.eq_of_mem_replicate h
  · simp only [loadSeq, hseq, hf, List.length_append, List.length_cons, List.length_nil]

/-- Witness for C1 at the empty initial state with two concurrent calls. -/
theorem load_coalesces_witness :
    (∀ p ∈ (loadSeq initialState (("A", none) :: [("B", none)])).1,
       p = PResult.pending 0) ∧
    (loadSeq initialState (("A", none) :: [("B", none)])).2.docScripts.length = 1 :=
  load_coalesces initialState "A" none [("B", none)] rfl rfl
    (fun s hs => absurd hs (List.not_mem_nil s))

/-- C2: contrary to the claimed exact output (and to the doc comment in the
source itself), buildUrl percent-encodes the comma of a joined library
list, because the URLSearchParams serializer encodes commas; the
no-options output does match the claimed string. -/
theorem buildUrl_percent_encodes_comma :
    buildUrl "KEY"
      (some { libraries := some ["places", "drawing"], language := some "en",
              region := some "US" }) =
      "https://maps.googleapis.com/maps/api/js?key=KEY&libraries=places%2Cdrawing&language=en&region=US" ∧
    buildUrl "KEY"
      (some { libraries := some ["places", "drawing"], language := some "en",
              region := some "US" }) ≠
      "https://maps.googleapis.com/maps/api/js?key=KEY&libraries=places,drawing&language=en&region=US" ∧
    buildUrl "KEY" none = "https://maps.googleapis.com/maps/api/js?key=KEY" := by
  decide

/-- C3: when the injected script fires its error event, the pending load
promise is rejected with the message "Failed to load Google Maps script",
the loadingPromise field is cleared and the global callback is deleted,
and a subsequent load call starts a fresh, independent attempt: it returns
a new, distinct promise that is pending while the old one stays rejected. -/
theorem scriptError_rejects_and_resets (st : SysState) (k k2 : String)
    (o o2 : Option LoadOptions)
    (h1 : isLoaded st = false) (h2 : st.loadingPromise = none)
    (hs : ∀ s ∈ st.docScripts, s.sid < st.nextId)
    (hp : ∀ q ∈ st.promises, q.1 < st.nextId) :
    (load st k o).1 = .pending st.nextId ∧
    lookupP (fireScriptError (load st k o).2 (st.nextId + 1)).promises st.nextId =
      some (.rejectedWith "Failed to load Google Maps script") ∧
    (fireScriptError (load st k o).2 (st.nextId + 1)).loadingPromise = none ∧
    (fireScriptError (load st k o).2 (st.nextId + 1)).callback = none ∧
    (load (fireScriptError (load st k o).2 (st.nextId + 1)) k2 o2).1 =
      .pending (st.nextId + 2) ∧
    st.nextId + 2 ≠ st.nextId ∧
    lookupP (load (fireScriptError (load st k o).2 (st.nextId + 1)) k2 o2).2.promises
      (st.nextId + 2) = some .pending ∧
    lookupP (load (fireScriptError (load st k o).2 (st.nextId + 1)) k2 o2).2.promises
      st.nextId = some (.rejectedWith "Failed to load Google Maps script") := by
  have hf := load_fresh st k o h1 h2 hs
  have hfe := fireScriptError_after_load st k o h1 h2 hs hp
  have hpne : ∀ q ∈ st.promises, q.1 ≠ st.nextId := by
    intro q hq
    have := hp q hq
    omega
  have hinner : lookupP
      (st.promises ++ [(st.nextId, PromiseState.rejectedWith "Failed to load Google Maps script")])
      st.nextId = some (.rejectedWith "Failed to load Google Maps script") := by
    rw [lookupP_append_none st.promises _ st.nextId (lookupP_none_of_ne st.promises st.nextId hpne)]
    simp [lookupP]
  rw [hfe]
  have h1b : isLoaded
      { st with
          promises := st.promises ++
            [(st.nextId, PromiseState.rejectedWith "Failed to load Google Maps script")],
          callback := none,
          docScripts := st.docScripts ++
            [{ sid := st.nextId + 1,
               src := buildUrl k o ++ "&callback=__googleMapsCallback__",
               onerror := some st.nextId }],
          scriptElement := some (st.nextId + 1),
          loadingPromise := none,
          nextId := st.nextId + 2 } = false := by simpa [isLoaded] using h1
  have hs2 : ∀ s ∈ st.docScripts ++
      [{ sid := st.nextId + 1,
         src := buildUrl k o ++ "&callback=__googleMapsCallback__",
         onerror := some st.nextId }], s.sid < st.nextId + 2 := by
    intro s hsmem
    rcases List.mem_append.mp hsmem with hmem | hmem
    · have := hs s hmem
      omega
    · rcases List.mem_singleton.mp hmem with rfl
      simp
  have hf2 := load_fresh _ k2 o2 h1b rfl hs2
  rw [hf]
  refine ⟨rfl, hinner, rfl, rfl, ?_, by omega, ?_, ?_⟩
  · rw [hf2]
  · rw [hf2]
    have houter : lookupP
        (st.promises ++ [(st.nextId, PromiseState.rejectedWith "Failed to load Google Maps script")])
        (st.nextId + 2) = none := by
      refine lookupP_none_of_ne _ _ ?_
      intro q hq
      rcases List.mem_append.mp hq with hmem | hmem
      · have := hp q hmem
        omega
      · rcases List.mem_singleton.mp hmem with rfl
        omega
    rw [lookupP_append_none _ _ _ houter]
    simp [lookupP]
  · rw [hf2]
    exact lookupP_append_some _ _ _ _ hinner

/-- Witness for C3 at the empty initial state. -/
theorem scriptError_rejects_witness :
    lookupP (fireScriptError (load initialState "A" none).2 1).promises 0 =
      some (PromiseState.rejectedWith "Failed to load Google Maps script") ∧
    (load (fireScriptError (load initialState "A" none).2 1) "B" none).1 =
      PResult.pending 2 :=
  ⟨(scriptError_rejects_and_resets initialState "A" "B" none none rfl rfl
      (fun s hs => absurd hs (List.not_mem_nil s))
      (fun q hq => absurd hq (List.not_mem_nil q))).2.1,
   (scriptError_rejects_and_resets initialState "A" "B" none none rfl rfl
      (fun s hs => absurd hs (List.not_mem_nil s))
      (fun q hq => absurd hq (List.not_mem_nil q))).2.2.2.2.1⟩

/-- C4: whenever the API is already loaded, load resolves immediately with
the existing global handle, injects no script and mutates nothing, for all
keys and options. -/
theorem load_noop_when_loaded (st : SysState) (k : String) (o : Option LoadOptions)
    (h : isLoaded st = true) :
    load st k o = (.resolved st.google, st) ∧
    ∃ g : GoogleObj, st.google = some g ∧ g.mapsId.isSome = true := by
  refine ⟨by simp [load, h], ?_⟩
  unfold isLoaded at h
  match hg : st.google with
  | some g => exact ⟨g, rfl, by rw [hg] at h; exact h⟩
  | none => rw [hg] at h; exact absurd h (by simp)

/-- Witness for C4 at a concrete loaded state. -/
theorem load_noop_when_loaded_witness :
    load loadedState "K" none = (PResult.resolved (some ⟨some 0⟩), loadedState) :=
  (load_noop_when_loaded loadedState "K" none rfl).1

/-- C5: wait resolves immediately with the global handle when loaded,
returns the identical in-flight promise when a load is pending, rejects
with the not-loading error message otherwise, and in every case leaves the
state untouched, so it never starts a load. -/
theorem wait_cases (st : SysState) :
    (wait st).2 = st ∧
    ((isLoaded st = true ∧ (wait st).1 = .resolved st.google) ∨
     (isLoaded st = false ∧
       ∃ pid, st.loadingPromise = some pid ∧ (wait st).1 = .pending pid) ∨
     (isLoaded st = false ∧ st.loadingPromise = none ∧
       (wait st).1 = .rejected notLoadingMsg)) := by
  by_cases h : isLoaded st
  · exact ⟨by simp [wait, h], Or.inl ⟨h, by simp [wait, h]⟩⟩
  · match hl : st.loadingPromise with
    | some pid =>
      refine ⟨by simp [wait, h, hl], Or.inr (Or.inl ⟨by simpa using h, pid, rfl, ?_⟩)⟩
      simp [wait, h, hl]
    | none =>
      refine ⟨by simp [wait, h, hl], Or.inr (Or.inr ⟨by simpa using h, rfl, ?_⟩)⟩
      simp [wait, h, hl]

/-- C6: importLibrary rejects with the not-loaded error message and leaves
the state untouched (so no network request and no mutation) when the base
API has not loaded, and otherwise delegates the unmodified name to the
native import mechanism and returns its result unmodified, for every such
mechanism. -/
theorem importLibrary_cases {α : Type} (nativeImport : Option GoogleObj → String → α)
    (st : SysState) (name : String) :
    (importLibrary nativeImport st name).2 = st ∧
    ((isLoaded st = true ∧
       (importLibrary nativeImport st name).1 = .delegated (nativeImport st.google name)) ∨
     (isLoaded st = false ∧
       (importLibrary nativeImport st name).1 = .thrown notLoadedMsg)) := by
  by_cases h : isLoaded st
  · exact ⟨by simp [importLibrary, h], Or.inl ⟨h, by simp [importLibrary, h]⟩⟩
  · exact ⟨by simp [importLibrary, h], Or.inr ⟨by simpa using h, by simp [importLibrary, h]⟩⟩

/-- C7: dispose clears both private fields, deletes the global google
object and the callback slot, removes the remembered script from the
document when one was remembered and leaves the document alone otherwise,
is idempotent and is a no-op on the pristine state, and afterwards
isLoaded is false. -/
theorem dispose_spec (st : SysState) :
    (dispose st).scriptElement = none ∧
    (dispose st).loadingPromise = none ∧
    (dispose st).google = none ∧
    (dispose st).callback = none ∧
    isLoaded (dispose st) = false ∧
    (∀ sid, st.scriptElement = some sid → findScript (dispose st).docScripts sid = none) ∧
    (st.scriptElement = none → (dispose st).docScripts = st.docScripts) ∧
    dispose (dispose st) = dispose st ∧
    dispose initialState = initialState := by
  refine ⟨rfl, rfl, rfl, rfl, rfl, ?_, ?_, ?_, rfl⟩
  · intro sid hsid
    simp only [dispose, hsid]
    exact findScript_filter_self st.docScripts sid
  · intro hnone
    simp [dispose, hnone]
  · rfl

/-- Witness for C7 on the state of an in-flight load. -/
theorem dispose_spec_witness :
    isLoaded (dispose (load initialState "K" none).2) = false ∧
    findScript (dispose (load initialState "K" none).2).docScripts 1 = none :=
  ⟨(dispose_spec (load initialState "K" none).2).2.2.2.2.1,
   (dispose_spec (load initialState "K" none).2).2.2.2.2.2.1 1 rfl⟩

/-- C8 counterexample: an explicitly provided empty language option is
dropped from the URL, against the claim that the language parameter is
included exactly when it is provided. -/
theorem buildUrl_empty_language_cex :
    buildUrl "K" (some { libraries := none, language := some "", region := none }) =
      "https://maps.googleapis.com/maps/api/js?key=K" ∧
    buildUrl "K" (some { libraries := none, language := some "", region := none }) ≠
      "https://maps.googleapis.com/maps/api/js?key=K&language=" := by
  decide

/-- C8 (amended): buildUrl serializes exactly the parameter list that holds
the key first, the comma-joined libraries exactly when present and
nonempty, then language and region exactly when provided with a nonempty
value, in this order; the serialization leaves safe characters untouched. -/
theorem buildUrl_param_structure (k : String) (o : Option LoadOptions) :
    buildUrl k o =
      "https://maps.googleapis.com/maps/api/js?" ++
        serializeParams (specUrlParams k o) ∧
    (specUrlParams k o).head? = some ("key", k) ∧
    (∀ s : String, s.data.all formSafe = true → formEncode s = s) := by
  refine ⟨?_, ?_, fun s h => formEncode_safe_id s h⟩
  · rw [buildUrl, urlParams_eq_spec]
  · simp [specUrlParams]

/-- Witness for C8 at a concrete key and option set. -/
theorem buildUrl_param_structure_witness :
    buildUrl "KEY" (some ⟨some ["places"], some "", some "US"⟩) =
      "https://maps.googleapis.com/maps/api/js?" ++
        serializeParams (specUrlParams "KEY" (some ⟨some ["places"], some "", some "US"⟩)) ∧
    formEncode "abc" = "abc" :=
  ⟨(buildUrl_param_structure "KEY" (some ⟨some ["places"], some "", some "US"⟩)).1,
   (buildUrl_param_structure "KEY" none).2.2 "abc" (by decide)⟩

/-- C9 counterexample: after a dispose during an in-flight load the
pending promise can still be settled. The script element removed from the
document stays alive: on fetch failure its error event still fires and the
onerror closure rejects the promise, so the original claim that the
promise is never settled is false at this concrete input. -/
theorem dispose_detached_error_settles :
    lookupP (dispose (load initialState "K" none).2).promises 0 =
      some PromiseState.pending ∧
    lookupP (run (dispose (load initialState "K" none).2) [Step.errorStep 1]).promises 0 =
      some (.rejectedWith "Failed to load Google Maps script") := by
  decide

/-- C9 (amended): disposing while a load is in flight deletes the
registered callback and clears the loadingPromise field without settling
the promise returned to the waiters, and no sequence of later events can
ever resolve it; along every later event sequence free of script-error
events — in particular when the script later finishes loading — the
promise stays pending, so those waiters wait forever. The only remaining
settlement path is the error event of the detached script element, which
rejects the promise. -/
theorem dispose_never_resolves_waiters (k : String) (o : Option LoadOptions)
    (steps : List Step) :
    (load initialState k o).1 = .pending 0 ∧
    (dispose (load initialState k o).2).loadingPromise = none ∧
    (dispose (load initialState k o).2).callback = none ∧
    lookupP (dispose (load initialState k o).2).promises 0 = some .pending ∧
    (∀ g, lookupP (run (dispose (load initialState k o).2) steps).promises 0 ≠
       some (.resolvedWith g)) ∧
    ((∀ e ∈ steps, isErrorStep e = false) →
       lookupP (run (dispose (load initialState k o).2) steps).promises 0 =
         some .pending) := by
  have hf := load_fresh initialState k o rfl rfl
    (by intro s hsmem; exact absurd hsmem (by simp [initialState]))
  have hdisp : dispose (load initialState k o).2 =
      { google := none, callback := none, loadingPromise := none,
        scriptElement := none, docScripts := [],
        detachedScripts :=
          [⟨1, buildUrl k o ++ "&callback=__googleMapsCallback__", some 0⟩],
        promises := [(0, .pending)], nextId := 2 } := by
    rw [hf]
    simp [dispose, initialState]
  have hpu : pendingUnreachable (dispose (load initialState k o).2) 0 := by
    rw [hdisp]
    exact ⟨show (0 : Nat) < 2 by omega, by simp, by simp [lookupP]⟩
  have hnr : neverResolvedInv (dispose (load initialState k o).2) 0 := by
    rw [hdisp]
    exact ⟨show (0 : Nat) < 2 by omega, by simp, Or.inl (by simp [lookupP])⟩
  refine ⟨by rw [hf]; rfl, by rw [hdisp], by rw [hdisp],
    by rw [hdisp]; simp [lookupP], ?_, ?_⟩
  · intro g hg
    rcases (neverResolvedInv_run 0 steps _ hnr).2.2 with hp | hp
    · rw [hg] at hp
      exact absurd hp (by simp)
    · rw [hg] at hp
      exact absurd hp (by simp)
  · intro hall
    exact (pendingUnreachable_run 0 steps _ hall hpu).2.2

/-- Witness for C9 on a sequence without script-error events: the script
finishing loading after the dispose does not settle the promise. -/
theorem dispose_never_resolves_witness :
    lookupP (run (dispose (load initialState "K" none).2)
      [Step.succeedStep ⟨some 5⟩]).promises 0 = some PromiseState.pending :=
  (dispose_never_resolves_waiters "K" none [Step.succeedStep ⟨some 5⟩]).2.2.2.2.2
    (fun e he => by
      rcases List.mem_singleton.mp he with rfl
      rfl)

/-- C10: the script-error handler leaves the scriptElement field, the
document scripts and the global google object exactly as they were,
clearing only the loadingPromise field and the callback slot; a retry then
appends a second script element while the dead first script stays attached
to the document. -/
theorem scriptError_frame_and_retry (st : SysState) (k k2 : String)
    (o o2 : Option LoadOptions)
    (h1 : isLoaded st = false) (h2 : st.loadingPromise = none)
    (hs : ∀ s ∈ st.docScripts, s.sid < st.nextId)
    (hp : ∀ q ∈ st.promises, q.1 < st.nextId) :
    (load st k o).2.scriptElement = some (st.nextId + 1) ∧
    (fireScriptError (load st k o).2 (st.nextId + 1)).scriptElement =
      (load st k o).2.scriptElement ∧
    (fireScriptError (load st k o).2 (st.nextId + 1)).docScripts =
      (load st k o).2.docScripts ∧
    (fireScriptError (load st k o).2 (st.nextId + 1)).google = (load st k o).2.google ∧
    (fireScriptError (load st k o).2 (st.nextId + 1)).loadingPromise = none ∧
    (fireScriptError (load st k o).2 (st.nextId + 1)).callback = none ∧
    (load (fireScriptError (load st k o).2 (st.nextId + 1)) k2 o2).2.docScripts.length =
      st.docScripts.length + 2 ∧
    findScript
      (load (fireScriptError (load st k o).2 (st.nextId + 1)) k2 o2).2.docScripts
      (st.nextId + 1) =
      some { sid := st.nextId + 1,
             src := buildUrl k o ++ "&callback=__googleMapsCallback__",
             onerror := some st.nextId } := by
  have hf := load_fresh st k o h1 h2 hs
  have hfe := fireScriptError_after_load st k o h1 h2 hs hp
  have h1b : isLoaded
      { st with
          promises := st.promises ++
            [(st.nextId, PromiseState.rejectedWith "Failed to load Google Maps script")],
          callback := none,
          docScripts := st.docScripts ++
            [{ sid := st.nextId + 1,
               src := buildUrl k o ++ "&callback=__googleMapsCallback__",
               onerror := some st.nextId }],
          scriptElement := some (st.nextId + 1),
          loadingPromise := none,
          nextId := st.nextId + 2 } = false := by simpa [isLoaded] using h1
  have hs2 : ∀ s ∈ st.docScripts ++
      [{ sid := st.nextId + 1,
         src := buildUrl k o ++ "&callback=__googleMapsCallback__",
         onerror := some st.nextId }], s.sid < st.nextId + 2 := by
    intro s hsmem
    rcases List.mem_append.mp hsmem with hmem | hmem
    · have := hs s hmem
      omega
    · rcases List.mem_singleton.mp hmem with rfl
      simp
  have hf2 := load_fresh _ k2 o2 h1b rfl hs2
  rw [hfe, hf]
  have hne : ∀ s ∈ st.docScripts, s.sid ≠ st.nextId + 1 := by
    intro s hsmem
    have := hs s hsmem
    omega
  refine ⟨rfl, rfl, rfl, rfl, rfl, rfl, ?_, ?_⟩
  · rw [hf2]
    simp [List.length_append]
  · rw [hf2]
    exact findScript_append_some _ _ _ _ (findScript_append_fresh st.docScripts _ hne)

/-- Witness for C10 at the empty initial state. -/
theorem scriptError_frame_witness :
    (fireScriptError (load initialState "A" none).2 1).docScripts =
      (load initialState "A" none).2.docScripts ∧
    (load (fireScriptError (load initialState "A" none).2 1) "B" none).2.docScripts.length = 2 :=
  ⟨(scriptError_frame_and_retry initialState "A" "B" none none rfl rfl
      (fun s hs => absurd hs (List.not_mem_nil s))
      (fun q hq => absurd hq (List.not_mem_nil q))).2.2.1,
   (scriptError_frame_and_retry initialState "A" "B" none none rfl rfl
      (fun s hs => absurd hs (List.not_mem_nil s))
      (fun q hq => absurd hq (List.not_mem_nil q))).2.2.2.2.2.2.1⟩

end GMapLoader
